import Mathlib

/-!
Verification of the proactive quality-control subsystem of the cement plant
platform.  The data model follows the shapes exchanged between the React
dashboard (`cementflow-ai-main/src/pages/QualityControl.tsx`) and the QC
backend service.  The backend implementation itself (safety clamp, what-if
simulator, apply engine, drift detector, orchestrator) is not part of the
checked-out sources, so those components are modelled from the written
specification; the frontend handlers are embedded directly from the
TypeScript source.
-/

namespace CementQC

/-- One knob adjustment, as in the frontend `Plan.actions` element type
`{ knob: string; delta_pct: number; reason: string }`. -/
structure Action where
  knob : String
  delta_pct : ℚ
  reason : String
  deriving DecidableEq, Repr

/-- A corrective plan, as in the frontend `Plan` interface:
`{ issue, kpi_impact, actions, notes? }`. -/
structure Plan where
  issue : String
  kpi_impact : String
  actions : List Action
  notes : Option String
  deriving DecidableEq, Repr

/-- Projected post-action parameter values, as in the frontend
`SimulationResult.simulated_after`. -/
structure SimulationResult where
  LSF_est : ℚ
  Blaine_est : ℚ
  fCaO_est : ℚ
  deriving DecidableEq, Repr

/-- Modelled from the spec: `ControlState` = "{current knob settings}", the one
piece of mutable shared state (the backend module holding it is absent from
the sources). -/
structure ControlState where
  knobs : List (String × ℚ)
  deriving DecidableEq, Repr

/-- Current setting of a knob in the control state, if the knob exists. -/
def ControlState.lookup (cs : ControlState) (k : String) : Option ℚ :=
  (cs.knobs.find? (fun kv => kv.fst == k)).map Prod.snd

/-- Modelled from the spec: per-knob operational constraints of the Safety
Clamp — "the configured maximum per-step change for that knob" and "its
configured absolute operating range" (`qc/safety.py` is absent from the
sources). -/
structure KnobSpec where
  maxStep : ℚ
  lo : ℚ
  hi : ℚ
  deriving DecidableEq, Repr

/-- A constraint set: an assignment of a `KnobSpec` to each known knob. -/
structure Constraints where
  specs : List (String × KnobSpec)
  deriving DecidableEq, Repr

/-- Constraint attached to a knob identifier, if the knob is known. -/
def Constraints.lookup (c : Constraints) (k : String) : Option KnobSpec :=
  (c.specs.find? (fun kv => kv.fst == k)).map Prod.snd

/-- Value a knob would reach after a percentage change `d` of its current
setting `cur` (an Action carries a "delta as percentage of current setting"). -/
def projectedValue (cur d : ℚ) : ℚ :=
  cur * (1 + d / 100)

/-- Modelled from the spec: the per-action core of `clamp_actions` in the
absent `qc/safety.py` — first the delta is clamped to the signed per-step
maximum, then, if the projected knob value would exit the absolute operating
range, the projected value is clamped to the nearer boundary and the delta
recomputed accordingly. -/
def clampDelta (ks : KnobSpec) (cur d : ℚ) : ℚ :=
  let d1 := max (-ks.maxStep) (min ks.maxStep d)
  let proj := cur * (1 + d1 / 100)
  let proj2 := max ks.lo (min ks.hi proj)
  100 * (proj2 - cur) / cur

/-- Modelled from the spec: `clamp(plan, constraints)` of the Safety Clamp
(`clamp_actions` in the absent `qc/safety.py`).  Pure function: unknown knob
identifiers are dropped rather than failing the plan; every surviving action
has its delta clamped by `clampDelta`. -/
def clampActions (cons : Constraints) (cs : ControlState) (p : Plan) : Plan :=
  { p with
    actions := p.actions.filterMap fun a =>
      match cons.lookup a.knob, cs.lookup a.knob with
      | some ks, some cur => some { a with delta_pct := clampDelta ks cur a.delta_pct }
      | _, _ => none }

/-- A constraint set together with a control state is well formed when every
knob that is both known and present has a nonnegative per-step maximum and a
strictly positive current setting lying inside its operating range. -/
def WellFormedConstraints (cons : Constraints) (cs : ControlState) : Prop :=
  ∀ k ks cur, cons.lookup k = some ks → cs.lookup k = some cur →
    0 ≤ ks.maxStep ∧ ks.lo ≤ cur ∧ cur ≤ ks.hi ∧ 0 < cur

theorem clampDelta_bounds (ks : KnobSpec) (cur d : ℚ)
    (hms : 0 ≤ ks.maxStep) (hlo : ks.lo ≤ cur) (hhi : cur ≤ ks.hi) (hcur : 0 < cur) :
    -ks.maxStep ≤ clampDelta ks cur d ∧ clampDelta ks cur d ≤ ks.maxStep ∧
    ks.lo ≤ projectedValue cur (clampDelta ks cur d) ∧
    projectedValue cur (clampDelta ks cur d) ≤ ks.hi := by
  have hcd : clampDelta ks cur d =
      100 * (max ks.lo (min ks.hi (cur * (1 + max (-ks.maxStep) (min ks.maxStep d) / 100))) - cur)
        / cur := rfl
  set d1 := max (-ks.maxStep) (min ks.maxStep d) with hd1eq
  set proj := cur * (1 + d1 / 100) with hprojeq
  set proj2 := max ks.lo (min ks.hi proj) with hproj2eq
  rw [hcd]
  have hd1a : -ks.maxStep ≤ d1 := le_max_left _ _
  have hd1b : d1 ≤ ks.maxStep := max_le (by linarith) (min_le_left _ _)
  have hp2a : ks.lo ≤ proj2 := le_max_left _ _
  have hp2b : proj2 ≤ ks.hi := max_le (by linarith) (min_le_left _ _)
  have hcurne : cur ≠ 0 := ne_of_gt hcur
  have hpv : projectedValue cur (100 * (proj2 - cur) / cur) = proj2 := by
    unfold projectedValue
    field_simp
    ring
  -- the clamped projection lies between the current value and the raw projection
  have hub : proj2 ≤ max cur proj := by
    refine max_le (le_trans hlo (le_max_left _ _)) ?_
    exact le_trans (min_le_right _ _) (le_max_right _ _)
  have hlb : min cur proj ≤ proj2 := by
    have h1 : min cur proj ≤ min ks.hi proj :=
      le_min (le_trans (min_le_left _ _) hhi) (min_le_right _ _)
    exact le_trans h1 (le_max_right _ _)
  -- translate the projection bounds into bounds on the recomputed delta
  have hδub : 100 * (proj2 - cur) ≤ cur * ks.maxStep := by
    rcases le_total cur proj with hcp | hcp
    · have h2 : proj2 ≤ proj := le_trans hub (by simp [hcp])
      have hdp : proj - cur = cur * d1 / 100 := by rw [hprojeq]; ring
      nlinarith [mul_le_mul_of_nonneg_left hd1b (le_of_lt hcur)]
    · have h2 : proj2 ≤ cur := le_trans hub (by simp [hcp])
      nlinarith [mul_nonneg (le_of_lt hcur) hms]
  have hδlb : cur * (-ks.maxStep) ≤ 100 * (proj2 - cur) := by
    rcases le_total cur proj with hcp | hcp
    · have h2 : cur ≤ proj2 := le_trans (by simp [hcp]) hlb
      nlinarith [mul_nonneg (le_of_lt hcur) hms]
    · have h2 : proj ≤ proj2 := le_trans (by simp [hcp]) hlb
      have hdp : proj - cur = cur * d1 / 100 := by rw [hprojeq]; ring
      nlinarith [mul_le_mul_of_nonneg_left hd1a (le_of_lt hcur)]
  refine ⟨?_, ?_, ?_, ?_⟩
  · rw [le_div_iff₀ hcur]
    nlinarith
  · rw [div_le_iff₀ hcur]
    nlinarith
  · rw [hpv]; exact hp2a
  · rw [hpv]; exact hp2b

/-- C1: for every Plan and every well-formed constraint set, every Action in
the Safety Clamp output has `|delta_pct|` at most the configured per-step
maximum for its knob and a projected knob value inside that knob's absolute
operating range — for arbitrary (including adversarial or out-of-range)
oracle output. -/
theorem C1_clamp_output_within_bounds
    (cons : Constraints) (cs : ControlState) (p : Plan)
    (hwf : WellFormedConstraints cons cs) :
    ∀ a ∈ (clampActions cons cs p).actions,
      ∃ ks cur, cons.lookup a.knob = some ks ∧ cs.lookup a.knob = some cur ∧
        |a.delta_pct| ≤ ks.maxStep ∧
        ks.lo ≤ projectedValue cur a.delta_pct ∧
        projectedValue cur a.delta_pct ≤ ks.hi := by
  intro a ha
  simp only [clampActions, List.mem_filterMap] at ha
  obtain ⟨a0, _, hmap⟩ := ha
  rcases hks : cons.lookup a0.knob with _ | ks
  · rw [hks] at hmap; cases hmap
  rcases hcur : cs.lookup a0.knob with _ | cur
  · rw [hks, hcur] at hmap; cases hmap
  rw [hks, hcur] at hmap
  injection hmap with hmap
  obtain ⟨hms, hlo, hhi, hpos⟩ := hwf a0.knob ks cur hks hcur
  obtain ⟨h1, h2, h3, h4⟩ := clampDelta_bounds ks cur a0.delta_pct hms hlo hhi hpos
  refine ⟨ks, cur, ?_, ?_, ?_, ?_, ?_⟩
  · rw [← hmap]; exact hks
  · rw [← hmap]; exact hcur
  · rw [← hmap]; exact abs_le.mpr ⟨h1, h2⟩
  · rw [← hmap]; exact h3
  · rw [← hmap]; exact h4

/-- Concrete instantiation of `C1_clamp_output_within_bounds`: a plan whose
single action requests a wildly out-of-range (+400%) change to a knob capped
at 5% per step comes out of the clamp as a +5% action that is within bounds. -/
theorem C1_clamp_output_within_bounds_witness :
    WellFormedConstraints
      ⟨[("kiln_speed", ⟨5, 50, 200⟩)]⟩ ⟨[("kiln_speed", 100)]⟩ ∧
    (∃ ks cur,
      Constraints.lookup ⟨[("kiln_speed", ⟨5, 50, 200⟩)]⟩ "kiln_speed" = some ks ∧
      ControlState.lookup ⟨[("kiln_speed", 100)]⟩ "kiln_speed" = some cur ∧
      |(5 : ℚ)| ≤ ks.maxStep ∧
      ks.lo ≤ projectedValue cur 5 ∧ projectedValue cur 5 ≤ ks.hi) := by
  have hwf : WellFormedConstraints
      ⟨[("kiln_speed", ⟨5, 50, 200⟩)]⟩ ⟨[("kiln_speed", 100)]⟩ := by
    intro k ks cur hks hcur
    by_cases hk : k = "kiln_speed"
    · subst hk
      simp only [Constraints.lookup, ControlState.lookup, List.find?] at hks hcur
      norm_num at hks hcur
      rw [← hks, ← hcur]
      norm_num
    · have hne : ("kiln_speed" == k) = false := beq_eq_false_iff_ne.mpr (Ne.symm hk)
      simp [Constraints.lookup, List.find?, hne] at hks
  refine ⟨hwf, ?_⟩
  have hcd5 : clampDelta ⟨5, 50, 200⟩ 100 400 = 5 := by
    norm_num [clampDelta, min_def, max_def]
  have hacts : (clampActions ⟨[("kiln_speed", ⟨5, 50, 200⟩)]⟩ ⟨[("kiln_speed", 100)]⟩
      ⟨"LSF drift", "LSF", [⟨"kiln_speed", 400, "push hard"⟩], none⟩).actions
      = [⟨"kiln_speed", 5, "push hard"⟩] := by
    simp [clampActions, Constraints.lookup, ControlState.lookup, List.find?, hcd5]
  have h := C1_clamp_output_within_bounds
    ⟨[("kiln_speed", ⟨5, 50, 200⟩)]⟩ ⟨[("kiln_speed", 100)]⟩
    ⟨"LSF drift", "LSF", [⟨"kiln_speed", 400, "push hard"⟩], none⟩ hwf
    ⟨"kiln_speed", 5, "push hard"⟩ (by rw [hacts]; exact List.mem_singleton.mpr rfl)
  simpa using h

/-! ### Rolling baseline and what-if simulator -/

/-- Modelled from the spec: per-parameter rolling statistics of the Baseline
Tracker — "{rolling mean, rolling standard deviation, short-term trend slope,
sample count}" (the tracker module is absent from the sources). -/
structure ParamStats where
  mean : ℚ
  std : ℚ
  slope : ℚ
  count : ℕ
  deriving DecidableEq, Repr

/-- Modelled from the spec: the Baseline over the three tracked quality
parameters of the QC service (`LSF_est`, `Blaine_est`, `fCaO_est`). -/
structure Baseline where
  LSF_est : ParamStats
  Blaine_est : ParamStats
  fCaO_est : ParamStats
  deriving DecidableEq, Repr

/-- Starting point of the what-if projection: the current rolling-mean
estimate of each quality parameter. -/
def initialProjection (b : Baseline) : SimulationResult :=
  ⟨b.LSF_est.mean, b.Blaine_est.mean, b.fCaO_est.mean⟩

/-- Modelled from the spec: the parameter-response model shared with the live
stream generator, which maps one Action applied at given knob settings to its
effect on the projected parameter values (the generator module is absent from
the sources; the model is kept as an explicit parameter). -/
def ResponseModel : Type :=
  Action → ControlState → SimulationResult → SimulationResult

/-- Effect of one Action on the knob settings: the addressed knob moves by
`delta_pct` percent of its current setting; other knobs are untouched. -/
def applyActionToControl (cs : ControlState) (a : Action) : ControlState :=
  ⟨cs.knobs.map fun kv =>
    if kv.fst == a.knob then (kv.fst, projectedValue kv.snd a.delta_pct) else kv⟩

/-- One step of the what-if projection: the response model projects the
parameter effect and the knob settings advance, so that later actions see
earlier actions' projected effect. -/
def simStep (rm : ResponseModel) (s : ControlState × SimulationResult)
    (a : Action) : ControlState × SimulationResult :=
  (applyActionToControl s.fst a, rm a s.fst s.snd)

/-- Modelled from the spec: `simulate(plan, current_baseline,
current_control_state)` — `simulate_after` in the absent `qc/actions.py`.
Pure projection: actions are applied in their given sequence to the projected
state. -/
def simulate_after (rm : ResponseModel) (p : Plan) (b : Baseline)
    (cs : ControlState) : SimulationResult :=
  (p.actions.foldl (simStep rm) (cs, initialProjection b)).snd

/-- Small-step execution relation of the what-if simulator: `SimExec rm as s
s2` holds when running the action list `as` from projected state `s` can end
in state `s2`.  Used to state that the simulator admits exactly one outcome. -/
inductive SimExec (rm : ResponseModel) :
    List Action → ControlState × SimulationResult →
    ControlState × SimulationResult → Prop
  | nil (s : ControlState × SimulationResult) : SimExec rm [] s s
  | cons (a : Action) (as : List Action) (s s2 : ControlState × SimulationResult)
      (h : SimExec rm as (simStep rm s a) s2) : SimExec rm (a :: as) s s2

theorem simExec_eq_foldl (rm : ResponseModel) (as : List Action)
    (s s2 : ControlState × SimulationResult) (h : SimExec rm as s s2) :
    s2 = as.foldl (simStep rm) s := by
  induction h with
  | nil s => rfl
  | cons a as s s2 h ih => simpa [List.foldl_cons] using ih

/-- C4: the What-If Simulator is deterministic — any two executions of the
same Plan from the same Baseline and ControlState end in the same projected
state, and that state is the one `simulate_after` computes; no hidden
randomness can influence the projection. -/
theorem C4_simulate_deterministic (rm : ResponseModel) (p : Plan) (b : Baseline)
    (cs : ControlState) (r r2 : ControlState × SimulationResult)
    (h1 : SimExec rm p.actions (cs, initialProjection b) r)
    (h2 : SimExec rm p.actions (cs, initialProjection b) r2) :
    r = r2 ∧ r.snd = simulate_after rm p b cs := by
  have e1 := simExec_eq_foldl rm p.actions _ _ h1
  have e2 := simExec_eq_foldl rm p.actions _ _ h2
  refine ⟨e1.trans e2.symm, ?_⟩
  rw [e1]; rfl

/-- Concrete instantiation of `C4_simulate_deterministic`: a one-action plan
run through an explicit linear response model twice gives equal results. -/
theorem C4_simulate_deterministic_witness :
    (let rm : ResponseModel := fun a _ sr =>
      ⟨sr.LSF_est + a.delta_pct, sr.Blaine_est, sr.fCaO_est⟩
     let p : Plan := ⟨"LSF low", "LSF", [⟨"kiln_speed", 2, "raise"⟩], none⟩
     let b : Baseline := ⟨⟨94, 1, 0, 30⟩, ⟨3800, 40, 0, 30⟩, ⟨1, 1, 0, 30⟩⟩
     let cs : ControlState := ⟨[("kiln_speed", 100)]⟩
     let fin := List.foldl (simStep rm) (cs, initialProjection b) p.actions
     fin = fin ∧ fin.snd = simulate_after rm p b cs) := by
  refine C4_simulate_deterministic _ _ _ _ _ _ ?_ ?_ <;>
  · refine SimExec.cons _ _ _ _ ?_
    exact SimExec.nil _

/-- Kind of a detected Issue, following the spec's
"band-breach | drift-trend | statistical-shift". -/
inductive IssueKind where
  | bandBreach
  | driftTrend
  | statShift
  deriving DecidableEq, Repr

/-- Modelled from the spec: an Issue raised by the Drift Detector —
"{parameter, kind, magnitude, ...}" (the detector module `qc/detector.py` is
absent from the sources). -/
structure Issue where
  parameter : String
  kind : IssueKind
  magnitude : ℚ
  deriving DecidableEq, Repr

/-! ### Workflow orchestrator -/

/-- Modelled from the spec: the orchestrator's mutable state — the active
Plan store, the last SimulationResult together with the exact Plan it was
computed for, the apply-in-flight flag, and the shared ControlState and
Baseline (the FastAPI orchestrator `app.py` is absent from the sources).
`activePlans` is kept as a list so that the single-active-plan invariant is a
provable property rather than a typing artifact. -/
structure OrchState where
  activePlans : List Plan
  lastSim : Option (Plan × SimulationResult)
  applyBusy : Bool
  control : ControlState
  baseline : Baseline
  deriving DecidableEq, Repr

/-- Typed failure of `plan/propose`. -/
inductive ProposeErr where
  | noIssueDetected
  | activePlanExists
  deriving DecidableEq, Repr

/-- Typed failure of `plan/simulate`. -/
inductive SimErr where
  | planMismatch
  deriving DecidableEq, Repr

/-- Modelled from the spec: the specific unmet precondition reported by the
Apply Engine (`PreconditionNotMet` reasons; `PlanMismatch` and
`ConcurrentApplyRejected` of §7). -/
inductive PrecondErr where
  | planMismatch
  | noSimulation
  | concurrentApply
  deriving DecidableEq, Repr

/-- Modelled from the spec: `plan/propose(force)` — without an active Issue
and without force it fails with `NoIssueDetected`; a second proposal while a
Plan is active is rejected unless forced; a forced proposal supersedes the
active Plan.  A successful proposal installs the clamped candidate as the
single active Plan and discards any stale SimulationResult. -/
def proposeOp (force : Bool) (issue : Option Issue) (cand : Plan)
    (s : OrchState) : Except ProposeErr OrchState :=
  if force = false ∧ issue = none then .error .noIssueDetected
  else if force = false ∧ s.activePlans ≠ [] then .error .activePlanExists
  else .ok { s with activePlans := [cand], lastSim := none }

/-- Modelled from the spec: `plan/simulate(plan)` — requires the supplied
Plan to match the active Plan (else `PlanMismatch`), re-reads the live
Baseline and ControlState, stores the SimulationResult for that exact Plan,
and mutates nothing else. -/
def simulateOp (rm : ResponseModel) (p : Plan) (s : OrchState) :
    Except SimErr (OrchState × SimulationResult) :=
  if s.activePlans = [p] then
    let r := simulate_after rm p s.baseline s.control
    .ok ({ s with lastSim := some (p, r) }, r)
  else .error .planMismatch

/-- Merge of a Plan's Actions into the control settings, in sequence. -/
def applyControl (cs : ControlState) (p : Plan) : ControlState :=
  p.actions.foldl applyActionToControl cs

/-- Modelled from the spec: `apply(plan)` of the Apply Engine (absent
`app.py`).  Checks, in order: (1) the supplied plan equals the currently
active Plan, (2) a SimulationResult exists for that exact Plan, (3) no other
apply is in flight.  On success it atomically merges the Actions into
ControlState and clears the active Plan and stored simulation; on failure it
returns the state unchanged together with the specific unmet precondition. -/
def applyOp (p : Plan) (s : OrchState) : OrchState × Option PrecondErr :=
  if s.activePlans ≠ [p] then (s, some .planMismatch)
  else if s.lastSim.map Prod.fst ≠ some p then (s, some .noSimulation)
  else if s.applyBusy then (s, some .concurrentApply)
  else ({ s with control := applyControl s.control p,
                 activePlans := [], lastSim := none }, none)

/-- One operator-visible request to the orchestrator. -/
inductive OrchEvent where
  | propose (force : Bool) (issue : Option Issue) (cand : Plan)
  | simulateReq (p : Plan)
  | applyReq (p : Plan)
  | forceCancel

/-- Modelled from the spec: the orchestrator step — each request runs the
corresponding operation; a failed operation leaves the state unchanged, and
`forceCancel` discards the active Plan and returns to Idle. -/
def orchStep (rm : ResponseModel) (s : OrchState) : OrchEvent → OrchState
  | .propose force issue cand =>
      match proposeOp force issue cand s with
      | .ok s2 => s2
      | .error _ => s
  | .simulateReq p =>
      match simulateOp rm p s with
      | .ok (s2, _) => s2
      | .error _ => s
  | .applyReq p => (applyOp p s).fst
  | .forceCancel => { s with activePlans := [], lastSim := none }

/-- Initial (Idle) orchestrator state over given live data. -/
def orchInit (cs : ControlState) (b : Baseline) : OrchState :=
  ⟨[], none, false, cs, b⟩

/-- State after a sequence of requests starting from Idle. -/
def orchRun (rm : ResponseModel) (cs : ControlState) (b : Baseline)
    (evs : List OrchEvent) : OrchState :=
  evs.foldl (orchStep rm) (orchInit cs b)

/-- At most one Plan is active system-wide. -/
def SinglePlan (s : OrchState) : Prop :=
  s.activePlans.length ≤ 1

theorem proposeOp_ok_active (f : Bool) (i : Option Issue) (c : Plan)
    (s s2 : OrchState) (h : proposeOp f i c s = .ok s2) :
    s2.activePlans = [c] := by
  unfold proposeOp at h
  split at h
  · cases h
  · split at h
    · cases h
    · injection h with h
      rw [← h]

theorem simulateOp_ok_frame (rm : ResponseModel) (p : Plan) (s s2 : OrchState)
    (r : SimulationResult) (h : simulateOp rm p s = .ok (s2, r)) :
    s2.activePlans = s.activePlans ∧ s2.control = s.control ∧
    s2.baseline = s.baseline ∧ s2.lastSim = some (p, r) := by
  unfold simulateOp at h
  split at h
  · injection h with h
    have h1 := congrArg Prod.fst h
    have h2 := congrArg Prod.snd h
    simp only at h1 h2
    rw [← h1]
    exact ⟨rfl, rfl, rfl, by rw [h2]⟩
  · cases h

theorem orchStep_propose_active (rm : ResponseModel) (f : Bool)
    (i : Option Issue) (c : Plan) (s : OrchState) :
    (orchStep rm s (.propose f i c)).activePlans = s.activePlans ∨
    (orchStep rm s (.propose f i c)).activePlans = [c] := by
  simp only [orchStep]
  split
  · rename_i s2 heq
    exact Or.inr (proposeOp_ok_active _ _ _ _ _ heq)
  · exact Or.inl rfl

theorem orchStep_simulate_frame (rm : ResponseModel) (p : Plan) (s : OrchState) :
    (orchStep rm s (.simulateReq p)).activePlans = s.activePlans ∧
    (orchStep rm s (.simulateReq p)).control = s.control ∧
    (orchStep rm s (.simulateReq p)).baseline = s.baseline := by
  simp only [orchStep]
  split
  · rename_i s2 r heq
    obtain ⟨h1, h2, h3, _⟩ := simulateOp_ok_frame rm p s s2 r heq
    exact ⟨h1, h2, h3⟩
  · exact ⟨rfl, rfl, rfl⟩

theorem applyOp_fst_active (p : Plan) (s : OrchState) :
    (applyOp p s).fst = s ∨ (applyOp p s).fst.activePlans = [] := by
  unfold applyOp
  split
  · exact Or.inl rfl
  · split
    · exact Or.inl rfl
    · split
      · exact Or.inl rfl
      · exact Or.inr rfl

theorem orchStep_single_plan (rm : ResponseModel) (s : OrchState)
    (e : OrchEvent) (h : SinglePlan s) : SinglePlan (orchStep rm s e) := by
  cases e with
  | propose force issue cand =>
      rcases orchStep_propose_active rm force issue cand s with h2 | h2 <;>
        simp [SinglePlan, h2]
      exact h
  | simulateReq p =>
      have h2 := (orchStep_simulate_frame rm p s).1
      simpa [SinglePlan, h2] using h
  | applyReq p =>
      rcases applyOp_fst_active p s with h2 | h2
      · simpa [orchStep, h2] using h
      · simp [orchStep, SinglePlan, h2]
  | forceCancel => simp [orchStep, SinglePlan]

/-- C3: in every state the orchestrator can reach from Idle, at most one Plan
is active system-wide — every request (propose, simulate, apply,
force-cancel) preserves the invariant — and a successful non-forced proposal
never replaces an existing active Plan, so supersession happens only through
an explicit force. -/
theorem C3_single_active_plan (rm : ResponseModel) (cs : ControlState)
    (b : Baseline) (evs : List OrchEvent) :
    SinglePlan (orchRun rm cs b evs) ∧
    (∀ issue cand s s2, proposeOp false issue cand s = .ok s2 →
      s.activePlans = [] ∧ s2.activePlans = [cand]) := by
  constructor
  · have hgen : ∀ (l : List OrchEvent) (s : OrchState), SinglePlan s →
        SinglePlan (l.foldl (orchStep rm) s) := by
      intro l
      induction l with
      | nil => intro s hs; exact hs
      | cons e t ih =>
          intro s hs
          exact ih _ (orchStep_single_plan rm s e hs)
    exact hgen evs (orchInit cs b) (by simp [orchInit, SinglePlan])
  · intro issue cand s s2 hok
    unfold proposeOp at hok
    split at hok
    · cases hok
    · split at hok
      · cases hok
      · rename_i h1 h2
        injection hok with hok
        refine ⟨?_, by rw [← hok]⟩
        by_contra hne
        exact h2 ⟨rfl, hne⟩

/-- C5: invoking the What-If Simulator never mutates live process state — the
orchestrator's simulate request leaves ControlState and Baseline exactly as
they were, and a successful simulation returns the pure projection
`simulate_after` computed from them. -/
theorem C5_simulate_no_mutation (rm : ResponseModel) (p : Plan) (s : OrchState) :
    (orchStep rm s (.simulateReq p)).control = s.control ∧
    (orchStep rm s (.simulateReq p)).baseline = s.baseline ∧
    ∀ s2 r, simulateOp rm p s = .ok (s2, r) →
      s2.control = s.control ∧ s2.baseline = s.baseline ∧
      r = simulate_after rm p s.baseline s.control := by
  refine ⟨(orchStep_simulate_frame rm p s).2.1, (orchStep_simulate_frame rm p s).2.2, ?_⟩
  intro s2 r h
  unfold simulateOp at h
  split at h
  · injection h with h
    have h1 := congrArg Prod.fst h
    have h2 := congrArg Prod.snd h
    simp only at h1 h2
    rw [← h1, ← h2]
    exact ⟨rfl, rfl, rfl⟩
  · cases h

/-- Concrete instantiation of `C5_simulate_no_mutation`: simulating the
active plan of a concrete state keeps its control settings and baseline. -/
theorem C5_simulate_no_mutation_witness :
    (let rm : ResponseModel := fun _ _ sr => sr
     let p : Plan := ⟨"LSF low", "LSF", [], none⟩
     let b : Baseline := ⟨⟨94, 1, 0, 30⟩, ⟨3800, 40, 0, 30⟩, ⟨1, 1, 0, 30⟩⟩
     let cs : ControlState := ⟨[("kiln_speed", 100)]⟩
     let s0 : OrchState := ⟨[p], none, false, cs, b⟩
     let s2 : OrchState := { s0 with lastSim := some (p, ⟨94, 3800, 1⟩) }
     s2.control = s0.control ∧ s2.baseline = s0.baseline ∧
     (⟨94, 3800, 1⟩ : SimulationResult) = simulate_after rm p s0.baseline s0.control) := by
  exact (C5_simulate_no_mutation _ _ _).2.2 _ _ rfl

/-- C2: `apply(plan)` succeeds exactly when (1) the plan equals the currently
active Plan, (2) a SimulationResult exists for that exact Plan, and (3) no
other apply is in flight; a successful apply performs the full atomic update,
and every failing apply leaves the whole state (in particular ControlState)
untouched and reports the specific unmet precondition. -/
theorem C2_apply_preconditions (p : Plan) (s : OrchState) :
    ((applyOp p s).snd = none ↔
      s.activePlans = [p] ∧ s.lastSim.map Prod.fst = some p ∧ s.applyBusy = false) ∧
    ((applyOp p s).snd = none →
      (applyOp p s).fst = { s with control := applyControl s.control p,
                                   activePlans := [], lastSim := none }) ∧
    (∀ e, (applyOp p s).snd = some e → (applyOp p s).fst = s ∧
      (e = .planMismatch → s.activePlans ≠ [p]) ∧
      (e = .noSimulation → s.lastSim.map Prod.fst ≠ some p) ∧
      (e = .concurrentApply → s.applyBusy = true)) := by
  by_cases h1 : s.activePlans = [p]
  · by_cases h2 : s.lastSim.map Prod.fst = some p
    · by_cases h3 : s.applyBusy = true
      · simp only [applyOp, h1, h2, h3]
        simp only [ne_eq, not_true_eq_false, if_false, if_true]
        refine ⟨by simp [h1, h2, h3], by simp, ?_⟩
        intro e he
        injection he with he
        subst he
        simp_all
      · have h3f : s.applyBusy = false := by
          cases hb : s.applyBusy
          · rfl
          · exact absurd hb h3
        simp only [applyOp, h1, h2, h3f]
        simp only [ne_eq, not_true_eq_false, if_false, Bool.false_eq_true]
        refine ⟨by simp [h1, h2, h3f], ?_, ?_⟩
        · intro hnone
          simp_all
        · intro e he
          simp_all
    · simp only [applyOp, h1]
      simp only [ne_eq, not_true_eq_false, if_false, h2, not_false_eq_true, if_true]
      refine ⟨by simp [h2], by simp, ?_⟩
      intro e he
      injection he with he
      subst he
      simp_all
  · simp only [applyOp, ne_eq, h1, not_false_eq_true, if_true]
    refine ⟨by simp [h1], by simp, ?_⟩
    intro e he
    injection he with he
    subst he
    simp_all

/-- Concrete instantiation of `C2_apply_preconditions`: with the plan active,
simulated, and no apply in flight the call succeeds, and on a state with no
active plan the call fails with `planMismatch` and leaves the state as is. -/
theorem C2_apply_preconditions_witness :
    (let p : Plan := ⟨"LSF low", "LSF", [], none⟩
     let b : Baseline := ⟨⟨94, 1, 0, 30⟩, ⟨3800, 40, 0, 30⟩, ⟨1, 1, 0, 30⟩⟩
     let sGood : OrchState := ⟨[p], some (p, ⟨94, 3800, 1⟩), false, ⟨[]⟩, b⟩
     let sBad : OrchState := ⟨[], none, false, ⟨[]⟩, b⟩
     (applyOp p sGood).snd = none ∧
     ((applyOp p sBad).fst = sBad ∧ sBad.activePlans ≠ [p])) := by
  refine ⟨(C2_apply_preconditions _ _).1.mpr ⟨rfl, rfl, rfl⟩, ?_⟩
  have h := (C2_apply_preconditions
    ⟨"LSF low", "LSF", [], none⟩
    ⟨[], none, false, ⟨[]⟩, ⟨⟨94, 1, 0, 30⟩, ⟨3800, 40, 0, 30⟩, ⟨1, 1, 0, 30⟩⟩⟩).2.2
    .planMismatch rfl
  exact ⟨h.1, h.2.1 rfl⟩

/-- C7: an `apply` request whose Plan differs in any field from the currently
active Plan is rejected with the `PlanMismatch` precondition failure and
causes no mutation at all. -/
theorem C7_apply_plan_mismatch (p q : Plan) (s : OrchState)
    (hq : s.activePlans = [q]) (hne : p ≠ q) :
    applyOp p s = (s, some .planMismatch) := by
  have hnp : s.activePlans ≠ [p] := by
    rw [hq]
    intro hc
    injection hc with hc
    exact hne hc.symm
  unfold applyOp
  rw [if_pos hnp]

/-- Concrete instantiation of `C7_apply_plan_mismatch`: two plans that differ
only in the `notes` field — apply of the non-active one is rejected with
`planMismatch` and the state is returned unchanged. -/
theorem C7_apply_plan_mismatch_witness :
    (let q : Plan := ⟨"LSF low", "LSF", [⟨"kiln_speed", 2, "raise"⟩], none⟩
     let p : Plan := ⟨"LSF low", "LSF", [⟨"kiln_speed", 2, "raise"⟩], some "checked"⟩
     let b : Baseline := ⟨⟨94, 1, 0, 30⟩, ⟨3800, 40, 0, 30⟩, ⟨1, 1, 0, 30⟩⟩
     let s : OrchState := ⟨[q], some (q, ⟨94, 3800, 1⟩), false, ⟨[]⟩, b⟩
     applyOp p s = (s, some .planMismatch)) := by
  refine C7_apply_plan_mismatch _ _ _ rfl ?_
  intro hc
  exact Option.noConfusion (congrArg Plan.notes hc)

/-- Concrete instantiation of `C3_single_active_plan`: a run that proposes,
simulates, applies and force-cancels keeps at most one active Plan, and a
concrete non-forced proposal from Idle installs exactly the candidate. -/
theorem C3_single_active_plan_witness :
    (let rm : ResponseModel := fun _ _ sr => sr
     let p : Plan := ⟨"LSF low", "LSF", [⟨"kiln_speed", 2, "raise"⟩], none⟩
     let b : Baseline := ⟨⟨94, 1, 0, 30⟩, ⟨3800, 40, 0, 30⟩, ⟨1, 1, 0, 30⟩⟩
     let cs : ControlState := ⟨[("kiln_speed", 100)]⟩
     SinglePlan (orchRun rm cs b
       [.propose true none p, .simulateReq p, .applyReq p, .forceCancel])) ∧
    (proposeOp false (some ⟨"LSF_est", .statShift, 3⟩)
        ⟨"LSF low", "LSF", [], none⟩ (orchInit ⟨[]⟩ ⟨⟨94, 1, 0, 30⟩, ⟨3800, 40, 0, 30⟩, ⟨1, 1, 0, 30⟩⟩) =
      .ok { orchInit ⟨[]⟩ ⟨⟨94, 1, 0, 30⟩, ⟨3800, 40, 0, 30⟩, ⟨1, 1, 0, 30⟩⟩ with
              activePlans := [⟨"LSF low", "LSF", [], none⟩], lastSim := none } →
      (orchInit ⟨[]⟩ ⟨⟨94, 1, 0, 30⟩, ⟨3800, 40, 0, 30⟩, ⟨1, 1, 0, 30⟩⟩).activePlans = []) := by
  constructor
  · exact (C3_single_active_plan _ _ _ _).1
  · intro hok
    exact ((C3_single_active_plan (fun _ _ sr => sr) ⟨[]⟩
      ⟨⟨94, 1, 0, 30⟩, ⟨3800, 40, 0, 30⟩, ⟨1, 1, 0, 30⟩⟩ []).2 _ _ _ _ hok).1

/-! ### Drift detector -/

/-- Modelled from the spec: the Drift Detector tuning parameters — z-score
threshold, the N consecutive over-threshold ticks needed to fire, the M
consecutive within-one-standard-deviation samples that resolve an Issue, and
the re-raise cooldown (the detector module `qc/detector.py` is absent from
the sources). -/
structure DetectorConfig where
  zThreshold : ℚ
  needN : ℕ
  needM : ℕ
  cooldownTicks : ℕ
  deriving DecidableEq, Repr

/-- Per-parameter rate-limiting state of the Drift Detector. -/
structure DetectorState where
  overCount : ℕ
  withinCount : ℕ
  suppressed : Bool
  cooldownLeft : ℕ
  deriving DecidableEq, Repr

/-- Fresh, silent detector state. -/
def initDetector : DetectorState := ⟨0, 0, false, 0⟩

/-- Modelled from the spec: one tick of `maybe_issue` for a single parameter,
fed the band check and |z-score| of the newest sample.  Fires once the
|z-score| has exceeded the threshold for N consecutive in-band ticks (or at
once on a band breach); afterwards it suppresses re-raising until the
parameter has been back within one standard deviation for M consecutive
samples or the cooldown has elapsed. -/
def detectorTick (cfg : DetectorConfig) (param : String) (st : DetectorState)
    (inBand : Bool) (absZ : ℚ) : DetectorState × Option Issue :=
  let oc := if cfg.zThreshold < absZ then st.overCount + 1 else 0
  let wc := if absZ ≤ 1 then st.withinCount + 1 else 0
  if st.suppressed then
    let cd := st.cooldownLeft - 1
    if cfg.needM ≤ wc ∨ cd = 0 then
      (⟨oc, wc, false, 0⟩, none)
    else
      (⟨oc, wc, true, cd⟩, none)
  else if inBand = false then
    (⟨0, wc, true, cfg.cooldownTicks⟩, some ⟨param, .bandBreach, absZ⟩)
  else if cfg.needN ≤ oc then
    (⟨0, wc, true, cfg.cooldownTicks⟩, some ⟨param, .statShift, absZ⟩)
  else
    (⟨oc, wc, false, 0⟩, none)

/-- Number of Issues carried by one tick result. -/
def issueCount : Option Issue → ℕ
  | some _ => 1
  | none => 0

/-- Detector state and cumulative issue count advanced by one sample. -/
def detAccStep (cfg : DetectorConfig) (param : String)
    (acc : DetectorState × ℕ) (x : Bool × ℚ) : DetectorState × ℕ :=
  let r := detectorTick cfg param acc.fst x.fst x.snd
  (r.fst, acc.snd + issueCount r.snd)

/-- Detector run over a stream of (in-band?, |z-score|) samples for one
parameter, returning the final state and the total number of Issues
emitted. -/
def detectorRun (cfg : DetectorConfig) (param : String)
    (stream : List (Bool × ℚ)) : DetectorState × ℕ :=
  stream.foldl (detAccStep cfg param) (initDetector, 0)

/-- Shape of the detector state and issue count after `j` consecutive
in-band, over-threshold ticks from the fresh state: silent accumulation
before tick N, exactly one Issue and suppression from tick N until the
cooldown has elapsed. -/
def hostileInv (cfg : DetectorConfig) (j : ℕ) (st : DetectorState) (c : ℕ) : Prop :=
  (j < cfg.needN → st = ⟨j, 0, false, 0⟩ ∧ c = 0) ∧
  (cfg.needN ≤ j → j < cfg.needN + cfg.cooldownTicks →
    st = ⟨j - cfg.needN, 0, true, cfg.cooldownTicks - (j - cfg.needN)⟩ ∧ c = 1) ∧
  (j = cfg.needN + cfg.cooldownTicks →
    st = ⟨cfg.cooldownTicks, 0, false, 0⟩ ∧ c = 1)

theorem hostileInv_step (cfg : DetectorConfig) (param : String) (j : ℕ)
    (st : DetectorState) (c : ℕ) (x : Bool × ℚ)
    (_hN : 1 ≤ cfg.needN) (hM : 1 ≤ cfg.needM) (hCd : 1 ≤ cfg.cooldownTicks)
    (hz1 : 1 ≤ cfg.zThreshold) (hx1 : x.fst = true) (hx2 : cfg.zThreshold < x.snd)
    (hj : j < cfg.needN + cfg.cooldownTicks) (hInv : hostileInv cfg j st c) :
    hostileInv cfg (j + 1) (detAccStep cfg param (st, c) x).fst
      (detAccStep cfg param (st, c) x).snd := by
  obtain ⟨hA, hB, hT⟩ := hInv
  have hzlt : ¬ x.snd ≤ 1 := not_le.mpr (by linarith)
  have hM0 : ¬ cfg.needM ≤ 0 := by omega
  by_cases hcase : j < cfg.needN
  · obtain ⟨hst, hc0⟩ := hA hcase
    subst hst
    subst hc0
    by_cases hfire : cfg.needN ≤ j + 1
    · have hjeq : j + 1 = cfg.needN := by omega
      have hsub : j + 1 - cfg.needN = 0 := by omega
      simp only [detAccStep, detectorTick, issueCount, hx1, hx2, hzlt,
        if_true, if_false, ite_true, ite_false, Bool.false_eq_true]
      simp [hfire, hzlt]
      refine ⟨by omega, ?_, by omega⟩
      intro _ _
      simp [hsub]
    · simp only [detAccStep, detectorTick, issueCount, hx1, hx2, hzlt,
        if_true, if_false, ite_true, ite_false, Bool.false_eq_true]
      simp [hfire, hzlt]
      refine ⟨?_, by omega, by omega⟩
      intro _
      exact ⟨rfl, rfl⟩
  · have hBle : cfg.needN ≤ j := by omega
    obtain ⟨hst, hc1⟩ := hB hBle hj
    subst hst
    subst hc1
    by_cases hend : j + 1 = cfg.needN + cfg.cooldownTicks
    · have hcd : cfg.cooldownTicks - (j - cfg.needN) - 1 = 0 := by omega
      have hoc : j - cfg.needN + 1 = cfg.cooldownTicks := by omega
      simp only [detAccStep, detectorTick, issueCount, hx2, hzlt,
        if_true, if_false, ite_true, ite_false]
      simp [hcd, hM0, hzlt]
      refine ⟨by omega, by omega, ?_⟩
      intro _
      simp [hoc]
    · have hcd : ¬ (cfg.cooldownTicks - (j - cfg.needN) - 1 = 0) := by omega
      have e1 : j + 1 - cfg.needN = j - cfg.needN + 1 := by omega
      have e2 : cfg.cooldownTicks - (j + 1 - cfg.needN)
          = cfg.cooldownTicks - (j - cfg.needN) - 1 := by omega
      simp only [detAccStep, detectorTick, issueCount, hx2, hzlt,
        if_true, if_false, ite_true, ite_false]
      simp [hcd, hM0, hzlt]
      refine ⟨by omega, ?_, by omega⟩
      intro _ _
      simp [e1, e2]
      omega

theorem detectorRun_hostile_aux (cfg : DetectorConfig) (param : String)
    (hN : 1 ≤ cfg.needN) (hM : 1 ≤ cfg.needM) (hCd : 1 ≤ cfg.cooldownTicks)
    (hz1 : 1 ≤ cfg.zThreshold) :
    ∀ (stream : List (Bool × ℚ)) (j : ℕ) (st : DetectorState) (c : ℕ),
      (∀ x ∈ stream, x.fst = true ∧ cfg.zThreshold < x.snd) →
      j + stream.length ≤ cfg.needN + cfg.cooldownTicks →
      hostileInv cfg j st c →
      hostileInv cfg (j + stream.length)
        (stream.foldl (detAccStep cfg param) (st, c)).fst
        (stream.foldl (detAccStep cfg param) (st, c)).snd := by
  intro stream
  induction stream with
  | nil =>
      intro j st c _ _ hInv
      simpa using hInv
  | cons x t ih =>
      intro j st c hs hlen hInv
      obtain ⟨hx1, hx2⟩ := hs x (List.mem_cons_self x t)
      have hj : j < cfg.needN + cfg.cooldownTicks := by
        simp only [List.length_cons] at hlen
        omega
      have hstep := hostileInv_step cfg param j st c x hN hM hCd hz1 hx1 hx2 hj hInv
      have hlen2 : (j + 1) + t.length ≤ cfg.needN + cfg.cooldownTicks := by
        simp only [List.length_cons] at hlen
        omega
      have hrec := ih (j + 1) (detAccStep cfg param (st, c) x).fst
        (detAccStep cfg param (st, c) x).snd
        (fun y hy => hs y (List.mem_cons_of_mem x hy)) hlen2 hstep
      have hfold : (x :: t).foldl (detAccStep cfg param) (st, c)
          = t.foldl (detAccStep cfg param) (detAccStep cfg param (st, c) x) := by
        simp [List.foldl_cons]
      have hlen3 : j + (x :: t).length = (j + 1) + t.length := by
        simp only [List.length_cons]
        omega
      rw [hfold, hlen3]
      simpa using hrec

/-- C6: a parameter whose samples stay inside the hard target band while the
|z-score| stays over the threshold receives exactly one Issue once the
streak reaches N ticks, and no further Issue before the cooldown has elapsed
(resolution cannot occur because over-threshold samples are never within one
standard deviation). -/
theorem C6_drift_single_issue (cfg : DetectorConfig) (param : String)
    (stream : List (Bool × ℚ))
    (hN : 1 ≤ cfg.needN) (hM : 1 ≤ cfg.needM) (hCd : 1 ≤ cfg.cooldownTicks)
    (hz1 : 1 ≤ cfg.zThreshold)
    (hs : ∀ x ∈ stream, x.fst = true ∧ cfg.zThreshold < x.snd)
    (hlen : stream.length ≤ cfg.needN + cfg.cooldownTicks) :
    (detectorRun cfg param stream).snd
      = if cfg.needN ≤ stream.length then 1 else 0 := by
  have h := detectorRun_hostile_aux cfg param hN hM hCd hz1 stream 0
    initDetector 0 hs (by simpa using hlen)
    (by
      refine ⟨fun _ => ⟨rfl, rfl⟩, fun h1 _ => absurd h1 (by omega), fun h1 => ?_⟩
      omega)
  obtain ⟨hA, hB, hT⟩ := h
  unfold detectorRun
  by_cases hk : cfg.needN ≤ stream.length
  · rw [if_pos hk]
    by_cases hend : stream.length = cfg.needN + cfg.cooldownTicks
    · exact (hT (by simpa using hend)).2
    · exact (hB (by simpa using hk) (by simp only [Nat.zero_add]; omega)).2
  · rw [if_neg hk]
    exact (hA (by simp only [Nat.zero_add]; omega)).2

/-- Concrete instantiation of `C6_drift_single_issue`: threshold 2, N = 2,
M = 3, cooldown 4; three in-band ticks with |z| = 3 yield exactly one
Issue. -/
theorem C6_drift_single_issue_witness :
    (detectorRun ⟨2, 2, 3, 4⟩ "LSF_est" [(true, 3), (true, 3), (true, 3)]).snd = 1 := by
  have h := C6_drift_single_issue ⟨2, 2, 3, 4⟩ "LSF_est"
    [(true, 3), (true, 3), (true, 3)]
    (by norm_num) (by norm_num) (by norm_num) (by norm_num)
    (by decide) (by norm_num)
  simpa using h

/-! ### QualityControl frontend (embedded from
`cementflow-ai-main/src/pages/QualityControl.tsx`) -/

/-- One element of the `/state/series` response as the frontend consumes it:
the known chart fields plus any further fields of the JSON object, which the
spread `{...d}` carries through unchanged.  `timestamp = none` models an
absent/null field. -/
structure RawSample where
  timestamp : Option String
  LSF_est : ℚ
  Blaine_est : ℚ
  fCaO_est : ℚ
  extra : List (String × ℚ)
  deriving DecidableEq, Repr

/-- Chart formatter of `fetchChartData`: a JS-falsy timestamp (absent, null
or the empty string) becomes "Unknown Time"; a timestamp `new Date` cannot
parse becomes "Invalid Time"; otherwise the parsed time is rendered by
`toLocaleTimeString` (both JS functions are abstracted as the `parse` and
`fmtTime` arguments).  All other fields ride along via the spread. -/
def formatSample (parse : String → Option ℕ) (fmtTime : ℕ → String)
    (d : RawSample) : RawSample :=
  match d.timestamp with
  | none => { d with timestamp := some "Unknown Time" }
  | some s =>
      if s = "" then { d with timestamp := some "Unknown Time" }
      else
        match parse s with
        | none => { d with timestamp := some "Invalid Time" }
        | some t => { d with timestamp := some (fmtTime t) }

/-- `fetchChartData` formats every element of the response via `map`. -/
def formatChartData (parse : String → Option ℕ) (fmtTime : ℕ → String)
    (data : List RawSample) : List RawSample :=
  data.map (formatSample parse fmtTime)

/-- C10: the chart formatter is total and field-preserving — a missing
(JS-falsy) timestamp maps to "Unknown Time", an unparseable one to "Invalid
Time", a valid one to its formatted local time, every other field of the
sample is unchanged, and the whole series is formatted elementwise. -/
theorem C10_formatter_total_preserving (parse : String → Option ℕ)
    (fmtTime : ℕ → String) (d : RawSample) :
    ((d.timestamp = none ∨ d.timestamp = some "" →
        (formatSample parse fmtTime d).timestamp = some "Unknown Time") ∧
     (∀ s, d.timestamp = some s → s ≠ "" → parse s = none →
        (formatSample parse fmtTime d).timestamp = some "Invalid Time") ∧
     (∀ s t, d.timestamp = some s → s ≠ "" → parse s = some t →
        (formatSample parse fmtTime d).timestamp = some (fmtTime t))) ∧
    ((formatSample parse fmtTime d).LSF_est = d.LSF_est ∧
     (formatSample parse fmtTime d).Blaine_est = d.Blaine_est ∧
     (formatSample parse fmtTime d).fCaO_est = d.fCaO_est ∧
     (formatSample parse fmtTime d).extra = d.extra) ∧
    (∀ ds, formatChartData parse fmtTime ds = ds.map (formatSample parse fmtTime)) := by
  refine ⟨⟨?_, ?_, ?_⟩, ?_, fun ds => rfl⟩
  · intro h
    rcases h with h | h <;> simp [formatSample, h]
  · intro s hts hne hp
    simp [formatSample, hts, hne, hp]
  · intro s t hts hne hp
    simp [formatSample, hts, hne, hp]
  · cases hts : d.timestamp with
    | none => simp [formatSample, hts]
    | some s =>
        by_cases hne : s = ""
        · simp [formatSample, hts, hne]
        · cases hp : parse s with
          | none => simp [formatSample, hts, hne, hp]
          | some t => simp [formatSample, hts, hne, hp]

/-- Concrete instantiation of `C10_formatter_total_preserving`: a parseable
timestamp is rendered and the sample's other fields survive unchanged. -/
theorem C10_formatter_total_preserving_witness :
    (formatSample (fun s => if s = "2024-01-01" then some 7 else none)
        (fun _ => "00:00:07")
        ⟨some "2024-01-01", 1, 3900, 1, [("extra_kpi", 5)]⟩).timestamp
      = some "00:00:07" ∧
    (formatSample (fun s => if s = "2024-01-01" then some 7 else none)
        (fun _ => "00:00:07")
        ⟨some "2024-01-01", 1, 3900, 1, [("extra_kpi", 5)]⟩).extra
      = [("extra_kpi", 5)] := by
  have h := C10_formatter_total_preserving
    (fun s => if s = "2024-01-01" then some 7 else none) (fun _ => "00:00:07")
    ⟨some "2024-01-01", 1, 3900, 1, [("extra_kpi", 5)]⟩
  exact ⟨h.1.2.2 "2024-01-01" 7 rfl (by decide) (by simp),
         h.2.1.2.2.2⟩

/-- Busy flag of the QualityControl page (`isLoading`), one value per
in-flight handler, `idle` for the `false` state. -/
inductive LoadFlag where
  | idle
  | proposing
  | simulating
  | applying
  | disturbing
  deriving DecidableEq, Repr

/-- Request the page sends to the backend (only those relevant to the plan
workflow). -/
inductive Request where
  | propose (force : Bool)
  | simulate (p : Plan)
  | applyReq (p : Plan)
  deriving DecidableEq, Repr

/-- Component state of the QualityControl page: the stored plan and
simulation results, the busy flag, whether the 1-second `setTimeout` reset
scheduled by a successful apply is still pending, and — as proof
instrumentation only — which plan the stored simulation results were
computed for. -/
structure FrontState where
  proposedPlan : Option Plan
  simulationResults : Option SimulationResult
  isLoading : LoadFlag
  clearScheduled : Bool
  simulatedPlan : Option Plan
  deriving DecidableEq, Repr

/-- Initial component state. -/
def initFront : FrontState := ⟨none, none, .idle, false, none⟩

/-- One completed handler run (or timer callback) of the page.  Each fetch
handler is atomic here: JS is single-threaded and every button is disabled
while `isLoading` is set, so handlers never overlap. -/
inductive FrontEvent where
  | proposeOk (p : Plan)
  | proposeFail
  | simulateOk (r : SimulationResult)
  | simulateFail
  | applyOk
  | applyFail
  | clearFires
  deriving DecidableEq, Repr

/-- Transition function of the page, embedded handler by handler from
`QualityControl.tsx`: `proposePlan` (guard `!!isLoading`; resets plan and
results, sends `POST /plan/propose?force=true`), `simulatePlan` (guard
`!!isLoading || !proposedPlan`; stores results on success, keeps them on
failure), `applyPlan` (guard `!!isLoading || !simulationResults` on the
button plus `!proposedPlan` in the handler; on success schedules the
1-second reset), and the scheduled reset callback that nulls both stores.
A guarded-out event leaves the state unchanged and sends nothing. -/
def frontStep (s : FrontState) : FrontEvent → FrontState × Option Request
  | .proposeOk p =>
      if s.isLoading = .idle then
        ({ s with proposedPlan := some p, simulationResults := none,
                  simulatedPlan := none }, some (.propose true))
      else (s, none)
  | .proposeFail =>
      if s.isLoading = .idle then
        ({ s with proposedPlan := none, simulationResults := none,
                  simulatedPlan := none }, some (.propose true))
      else (s, none)
  | .simulateOk r =>
      match s.proposedPlan with
      | some p =>
          if s.isLoading = .idle then
            ({ s with simulationResults := some r, simulatedPlan := some p },
             some (.simulate p))
          else (s, none)
      | none => (s, none)
  | .simulateFail =>
      match s.proposedPlan with
      | some p =>
          if s.isLoading = .idle then (s, some (.simulate p)) else (s, none)
      | none => (s, none)
  | .applyOk =>
      match s.proposedPlan, s.simulationResults with
      | some p, some _ =>
          if s.isLoading = .idle then
            ({ s with clearScheduled := true }, some (.applyReq p))
          else (s, none)
      | _, _ => (s, none)
  | .applyFail =>
      match s.proposedPlan, s.simulationResults with
      | some p, some _ =>
          if s.isLoading = .idle then (s, some (.applyReq p)) else (s, none)
      | _, _ => (s, none)
  | .clearFires =>
      if s.clearScheduled then
        ({ s with proposedPlan := none, simulationResults := none,
                  simulatedPlan := none, clearScheduled := false }, none)
      else (s, none)

/-- Page state after a sequence of completed handler runs. -/
def frontRun (evs : List FrontEvent) : FrontState :=
  evs.foldl (fun s e => (frontStep s e).fst) initFront

/-- Stored simulation results always belong to the currently stored plan. -/
def SimMatchesPlan (s : FrontState) : Prop :=
  ∀ r, s.simulationResults = some r →
    ∃ p, s.proposedPlan = some p ∧ s.simulatedPlan = some p

theorem frontStep_simMatches (s : FrontState) (e : FrontEvent)
    (h : SimMatchesPlan s) : SimMatchesPlan (frontStep s e).fst := by
  cases e with
  | proposeOk p =>
      simp only [frontStep]
      split
      · intro r hr; cases hr
      · exact h
  | proposeFail =>
      simp only [frontStep]
      split
      · intro r hr; cases hr
      · exact h
  | simulateOk r0 =>
      simp only [frontStep]
      split
      · rename_i p hp
        split
        · intro r hr
          exact ⟨p, by simpa using hp, rfl⟩
        · exact h
      · exact h
  | simulateFail =>
      simp only [frontStep]
      split
      · split
        · exact h
        · exact h
      · exact h
  | applyOk =>
      simp only [frontStep]
      split
      · split
        · intro r hr
          exact h r hr
        · exact h
      · exact h
  | applyFail =>
      simp only [frontStep]
      split
      · split
        · exact h
        · exact h
      · exact h
  | clearFires =>
      simp only [frontStep]
      split
      · intro r hr; cases hr
      · exact h

/-- C8 (amended): in every reachable page state the stored simulation
results belong to the stored plan, every apply request the page emits names
the currently stored and already-simulated plan while simulation results are
held, and once the reset scheduled by a successful apply fires, both stores
are null, so a further apply needs a fresh propose and simulate.  (Before the
scheduled reset fires, a duplicate apply of the same simulated plan is
possible — see the counterexample.) -/
theorem C8_apply_requires_simulation (evs : List FrontEvent) :
    SimMatchesPlan (frontRun evs) ∧
    (∀ s e p, SimMatchesPlan s → (frontStep s e).snd = some (.applyReq p) →
      s.proposedPlan = some p ∧ s.simulatedPlan = some p ∧
      s.simulationResults ≠ none) ∧
    (∀ s, s.clearScheduled = true →
      (frontStep s .clearFires).fst.proposedPlan = none ∧
      (frontStep s .clearFires).fst.simulationResults = none) := by
  refine ⟨?_, ?_, ?_⟩
  · have hgen : ∀ (l : List FrontEvent) (s : FrontState), SimMatchesPlan s →
        SimMatchesPlan (l.foldl (fun s e => (frontStep s e).fst) s) := by
      intro l
      induction l with
      | nil => intro s hs; exact hs
      | cons e t ih =>
          intro s hs
          exact ih _ (frontStep_simMatches s e hs)
    refine hgen evs initFront ?_
    intro r hr
    cases hr
  · intro s e p hm hreq
    cases e with
    | proposeOk q =>
        simp only [frontStep] at hreq
        split at hreq
        · cases hreq
        · cases hreq
    | proposeFail =>
        simp only [frontStep] at hreq
        split at hreq
        · cases hreq
        · cases hreq
    | simulateOk r0 =>
        simp only [frontStep] at hreq
        split at hreq
        · split at hreq
          · cases hreq
          · cases hreq
        · cases hreq
    | simulateFail =>
        simp only [frontStep] at hreq
        split at hreq
        · split at hreq
          · cases hreq
          · cases hreq
        · cases hreq
    | applyOk =>
        simp only [frontStep] at hreq
        split at hreq
        · rename_i q r0 hq hr0
          split at hreq
          · injection hreq with hreq
            injection hreq with hreq
            subst hreq
            obtain ⟨p2, hp2, hsp⟩ := hm r0 hr0
            rw [hq] at hp2
            injection hp2 with hp2
            subst hp2
            exact ⟨hq, hsp, by rw [hr0]; intro hc; cases hc⟩
          · cases hreq
        · cases hreq
    | applyFail =>
        simp only [frontStep] at hreq
        split at hreq
        · rename_i q r0 hq hr0
          split at hreq
          · injection hreq with hreq
            injection hreq with hreq
            subst hreq
            obtain ⟨p2, hp2, hsp⟩ := hm r0 hr0
            rw [hq] at hp2
            injection hp2 with hp2
            subst hp2
            exact ⟨hq, hsp, by rw [hr0]; intro hc; cases hc⟩
          · cases hreq
        · cases hreq
    | clearFires =>
        simp only [frontStep] at hreq
        split at hreq
        · cases hreq
        · cases hreq
  · intro s hc
    simp [frontStep, hc]

/-- Concrete instantiation of `C8_apply_requires_simulation`: in the state
reached by propose, simulate, successful apply, reset fired, both stores are
null; and the apply request emitted after propose and simulate names the
simulated plan. -/
theorem C8_apply_requires_simulation_witness :
    (let p : Plan := ⟨"LSF low", "LSF", [⟨"kiln_speed", 2, "raise"⟩], none⟩
     let r : SimulationResult := ⟨94, 3800, 1⟩
     let s3 := frontRun [.proposeOk p, .simulateOk r, .applyOk]
     (frontStep s3 .clearFires).fst.proposedPlan = none ∧
     (frontStep s3 .clearFires).fst.simulationResults = none) ∧
    (let p : Plan := ⟨"LSF low", "LSF", [⟨"kiln_speed", 2, "raise"⟩], none⟩
     let r : SimulationResult := ⟨94, 3800, 1⟩
     let s2 := frontRun [.proposeOk p, .simulateOk r]
     s2.proposedPlan = some p ∧ s2.simulatedPlan = some p ∧
     s2.simulationResults ≠ none) := by
  constructor
  · exact (C8_apply_requires_simulation []).2.2 _ rfl
  · refine (C8_apply_requires_simulation
      [.proposeOk ⟨"LSF low", "LSF", [⟨"kiln_speed", 2, "raise"⟩], none⟩,
       .simulateOk ⟨94, 3800, 1⟩]).2.1 _ .applyOk _ ?_ rfl
    exact (C8_apply_requires_simulation
      [.proposeOk ⟨"LSF low", "LSF", [⟨"kiln_speed", 2, "raise"⟩], none⟩,
       .simulateOk ⟨94, 3800, 1⟩]).1

/-- C8 as literally stated is false on the code: a successful apply does not
clear the stored Plan and SimulationResult synchronously (the reset sits in
a 1-second `setTimeout`), so immediately after the apply succeeds the page
can emit a second apply request for the same plan without re-proposing or
re-simulating. -/
theorem C8_counterexample_resend_apply :
    (frontRun [.proposeOk ⟨"LSF low", "LSF", [⟨"kiln_speed", 2, "raise"⟩], none⟩,
               .simulateOk ⟨94, 3800, 1⟩, .applyOk]).proposedPlan
      = some ⟨"LSF low", "LSF", [⟨"kiln_speed", 2, "raise"⟩], none⟩ ∧
    (frontRun [.proposeOk ⟨"LSF low", "LSF", [⟨"kiln_speed", 2, "raise"⟩], none⟩,
               .simulateOk ⟨94, 3800, 1⟩, .applyOk]).simulationResults
      = some ⟨94, 3800, 1⟩ ∧
    (frontStep
      (frontRun [.proposeOk ⟨"LSF low", "LSF", [⟨"kiln_speed", 2, "raise"⟩], none⟩,
                 .simulateOk ⟨94, 3800, 1⟩, .applyOk]) .applyOk).snd
      = some (.applyReq ⟨"LSF low", "LSF", [⟨"kiln_speed", 2, "raise"⟩], none⟩) := by
  refine ⟨rfl, rfl, rfl⟩

/-- C9: every plan-proposal request the page emits carries `force = true`
(the handler fetches `/plan/propose?force=true`), the propose handler first
nulls the stored Plan and SimulationResult, and the propose endpoint invoked
with `force = true` can never fail with `NoIssueDetected` — it installs the
candidate as the active Plan, superseding any previous one. -/
theorem C9_propose_always_forced :
    (∀ (s : FrontState) (e : FrontEvent) (f : Bool),
      (frontStep s e).snd = some (.propose f) → f = true) ∧
    (∀ (s : FrontState) (p : Plan), s.isLoading = .idle →
      (frontStep s (.proposeOk p)).fst.simulationResults = none ∧
      (frontStep s (.proposeOk p)).fst.proposedPlan = some p ∧
      (frontStep s .proposeFail).fst.proposedPlan = none ∧
      (frontStep s .proposeFail).fst.simulationResults = none) ∧
    (∀ (i : Option Issue) (c : Plan) (s : OrchState),
      proposeOp true i c s ≠ .error .noIssueDetected ∧
      proposeOp true i c s = .ok { s with activePlans := [c], lastSim := none }) := by
  refine ⟨?_, ?_, ?_⟩
  · intro s e f hreq
    cases e with
    | proposeOk q =>
        simp only [frontStep] at hreq
        split at hreq
        · injection hreq with hreq
          injection hreq with hreq
          exact hreq.symm
        · cases hreq
    | proposeFail =>
        simp only [frontStep] at hreq
        split at hreq
        · injection hreq with hreq
          injection hreq with hreq
          exact hreq.symm
        · cases hreq
    | simulateOk r0 =>
        simp only [frontStep] at hreq
        split at hreq
        · split at hreq
          · cases hreq
          · cases hreq
        · cases hreq
    | simulateFail =>
        simp only [frontStep] at hreq
        split at hreq
        · split at hreq
          · cases hreq
          · cases hreq
        · cases hreq
    | applyOk =>
        simp only [frontStep] at hreq
        split at hreq
        · split at hreq
          · cases hreq
          · cases hreq
        · cases hreq
    | applyFail =>
        simp only [frontStep] at hreq
        split at hreq
        · split at hreq
          · cases hreq
          · cases hreq
        · cases hreq
    | clearFires =>
        simp only [frontStep] at hreq
        split at hreq
        · cases hreq
        · cases hreq
  · intro s p hidle
    simp [frontStep, hidle]
  · intro i c s
    constructor
    · unfold proposeOp
      rw [if_neg (by simp), if_neg (by simp)]
      intro hc
      cases hc
    · unfold proposeOp
      rw [if_neg (by simp), if_neg (by simp)]

/-- Concrete instantiation of `C9_propose_always_forced`: the request the
idle page emits on a successful proposal carries `force = true`, propose
clears the stored simulation results, and the forced endpoint succeeds on a
state that already has an active plan, superseding it. -/
theorem C9_propose_always_forced_witness :
    (true = true) ∧
    (frontStep initFront
      (.proposeOk ⟨"LSF low", "LSF", [], none⟩)).fst.simulationResults = none ∧
    proposeOp true none ⟨"Blaine high", "Blaine", [], none⟩
      ⟨[⟨"LSF low", "LSF", [], none⟩], none, false, ⟨[]⟩,
       ⟨⟨94, 1, 0, 30⟩, ⟨3800, 40, 0, 30⟩, ⟨1, 1, 0, 30⟩⟩⟩
      = .ok { activePlans := [⟨"Blaine high", "Blaine", [], none⟩], lastSim := none,
              applyBusy := false, control := ⟨[]⟩,
              baseline := ⟨⟨94, 1, 0, 30⟩, ⟨3800, 40, 0, 30⟩, ⟨1, 1, 0, 30⟩⟩ } := by
  refine ⟨?_, ?_, ?_⟩
  · exact (C9_propose_always_forced).1 initFront
      (.proposeOk ⟨"LSF low", "LSF", [], none⟩) true rfl
  · exact ((C9_propose_always_forced).2.1 initFront ⟨"LSF low", "LSF", [], none⟩ rfl).1
  · exact ((C9_propose_always_forced).2.2 none ⟨"Blaine high", "Blaine", [], none⟩
      ⟨[⟨"LSF low", "LSF", [], none⟩], none, false, ⟨[]⟩,
       ⟨⟨94, 1, 0, 30⟩, ⟨3800, 40, 0, 30⟩, ⟨1, 1, 0, 30⟩⟩⟩).2

end CementQC
